import Mathlib

/-!
Shallow embedding of the WatchAlert alert-rule evaluation core
(`internal/services/eval` package): the rule registry (`Submit`), the
reconciler (`Recover`) and its helper `getRecoverWaitTime`.  The Redis
event cache and pending-recovery table are modelled as association
lists keyed by fingerprint; a single `Recover` call works on a fixed
`(tenantId, ruleId, eventCacheKey, faultCenterInfoKey)` so the keys
are left implicit in the state.
-/

namespace WatchAlert

/-- Event status, from `models`: PreAlert, Alerting, PendingRecovery, Recovered. -/
inductive EventStatus : Type
  | preAlert
  | alerting
  | pendingRecovery
  | recovered
deriving DecidableEq, Repr

/-- The fields of `models.AlertCurEvent` the reconciler reads or writes. -/
structure AlertEvent : Type where
  tenantId : String
  faultCenterId : String
  fingerprint : String
  ruleId : String
  status : EventStatus
deriving DecidableEq, Repr

/-- `models.FaultCenter` info: the field `getRecoverWaitTime` reads (int64 seconds). -/
structure FaultCenterInfo : Type where
  RecoverWaitTime : Int
deriving DecidableEq, Repr

/-- `charsStartsWith pat l`: `pat` is a prefix of `l` (character lists). -/
def charsStartsWith : List Char → List Char → Bool
  | [], _ => true
  | _ :: _, [] => false
  | a :: as, b :: bs => a == b && charsStartsWith as bs

/-- `charsContains pat hay`: `pat` occurs contiguously in `hay`. -/
def charsContains (pat : List Char) : List Char → Bool
  | [] => charsStartsWith pat []
  | c :: t => charsStartsWith pat (c :: t) || charsContains pat t

/-- Go `strings.Contains s sub`: `sub` is a substring of `s`. -/
def strContains (s sub : String) : Bool :=
  charsContains sub.data s.data

/-- Association-list lookup (Go map read `m[k]`, first binding wins). -/
def lookupAssoc {α : Type} : List (String × α) → String → Option α
  | [], _ => none
  | (k, v) :: t, key => if k = key then some v else lookupAssoc t key

/-- Association-list delete (Go `delete(m, k)` / Redis field delete). -/
def removeAssoc {α : Type} : List (String × α) → String → List (String × α)
  | [], _ => []
  | (k, v) :: t, key => if k = key then removeAssoc t key else (k, v) :: removeAssoc t key

/-- Association-list upsert (Go `m[k] = v` / Redis field set). -/
def setAssoc {α : Type} : List (String × α) → String → α → List (String × α)
  | [], key, v => [(key, v)]
  | (k, w) :: t, key, v => if k = key then (key, v) :: t else (k, w) :: setAssoc t key v

/-- Modelled from the spec: `models.AlertCurEvent.TransitionStatus` lives in
`internal/models`, which is not under `src/`.  Spec §4.4 gives the machine
PreAlert→Alerting, Alerting→PendingRecovery, PendingRecovery→Alerting,
PendingRecovery→Recovered; "illegal transitions fail" (§3) and "event writes
are idempotent with respect to target status" (§4.4), so a same-status
transition succeeds and every other pair fails. -/
def canTransition : EventStatus → EventStatus → Bool
  | .preAlert, .alerting => true
  | .alerting, .pendingRecovery => true
  | .pendingRecovery, .alerting => true
  | .pendingRecovery, .recovered => true
  | a, b => a == b

/-- Modelled from the spec: `TransitionStatus` on an event value — `some` of the
updated event on a legal transition, `none` (the Go error) otherwise. -/
def TransitionStatus (ev : AlertEvent) (target : EventStatus) : Option AlertEvent :=
  if canTransition ev.status target then some { ev with status := target } else none

/-- Modelled from the spec: `tools.GetSliceDifference` lives in `pkg/tools`,
which is not under `src/`.  Spec §4.4 step 4: `recoverSet =`
`activeRuleFingerprints \ curFingerprints` (set difference). -/
def GetSliceDifference (a b : List String) : List String :=
  a.filter (fun x => !(b.contains x))

/-- The external Redis state a single `Recover` call touches: the event cache
for `eventCacheKey` (fingerprint → event) and the pending-recovery table for
`(tenantId, ruleId)` (fingerprint → first-seen unix seconds). -/
structure RedisState : Type where
  events : List (String × AlertEvent)
  pending : List (String × Int)
deriving DecidableEq, Repr

/-- Pass 1 of `Recover` (eval.go lines 167-179): iterate the `events`
snapshot; skip events whose `ruleId` does not contain the rule's `ruleId`;
remove PreAlert events absent from `curFingerprints` from the cache
(`RemoveAlertEvent` keys on `event.Fingerprint`); collect the rest into
`activeRuleFingerprints`.  Returns the updated state and the active list. -/
def preAlertCleanup (ruleId : String) (curFingerprints : List String) :
    List (String × AlertEvent) → RedisState → RedisState × List String
  | [], st => (st, [])
  | (fp, ev) :: rest, st =>
    if strContains ev.ruleId ruleId then
      if ev.status = .preAlert ∧ fp ∉ curFingerprints then
        preAlertCleanup ruleId curFingerprints rest
          { st with events := removeAssoc st.events ev.fingerprint }
      else
        let r := preAlertCleanup ruleId curFingerprints rest st
        (r.1, fp :: r.2)
    else
      preAlertCleanup ruleId curFingerprints rest st

/-- Pass 2 of `Recover` (eval.go lines 186-207): for each `fp` in
`curFingerprints` present in the pending snapshot and in the events snapshot,
transition the snapshot event to Alerting; on success push it back
(`PushAlertEvent` upserts by `event.Fingerprint`) and delete the pending
entry; on a transition error log and continue. -/
def promotePending (eventsSnap : List (String × AlertEvent))
    (pendingSnap : List (String × Int)) :
    List String → RedisState → RedisState
  | [], st => st
  | fp :: rest, st =>
    match lookupAssoc pendingSnap fp with
    | none => promotePending eventsSnap pendingSnap rest st
    | some _ =>
      match lookupAssoc eventsSnap fp with
      | none => promotePending eventsSnap pendingSnap rest st
      | some ev =>
        match TransitionStatus ev .alerting with
        | none => promotePending eventsSnap pendingSnap rest st
        | some ev' =>
          promotePending eventsSnap pendingSnap rest
            { st with
              events := setAssoc st.events ev'.fingerprint ev'
              pending := removeAssoc st.pending fp }

/-- Pass 3 of `Recover` (eval.go lines 217-256): for each fingerprint of the
recover set, read the live pending entry.  If it is missing (`redis.Nil`),
first set `pending[fp] := curTime`, then try the transition to
PendingRecovery — on failure log and continue (the pending write stays) —
and on success push the event back.  If the entry is present, recover only
when `curTime ≥ storedTime + recoverWaitTime` and the snapshot status is
PendingRecovery: transition to Recovered, push the event back, delete the
pending entry. -/
def recoverPass (eventsSnap : List (String × AlertEvent))
    (recoverWaitTime curTime : Int) :
    List String → RedisState → RedisState
  | [], st => st
  | fp :: rest, st =>
    match lookupAssoc eventsSnap fp with
    | none => recoverPass eventsSnap recoverWaitTime curTime rest st
    | some ev =>
      match lookupAssoc st.pending fp with
      | none =>
        let st1 : RedisState := { st with pending := setAssoc st.pending fp curTime }
        match TransitionStatus ev .pendingRecovery with
        | none => recoverPass eventsSnap recoverWaitTime curTime rest st1
        | some ev' =>
          recoverPass eventsSnap recoverWaitTime curTime rest
            { st1 with events := setAssoc st1.events ev'.fingerprint ev' }
      | some wTime =>
        if wTime + recoverWaitTime ≤ curTime ∧ ev.status = .pendingRecovery then
          match TransitionStatus ev .recovered with
          | none => recoverPass eventsSnap recoverWaitTime curTime rest st
          | some ev' =>
            recoverPass eventsSnap recoverWaitTime curTime rest
              { st with
                events := setAssoc st.events ev'.fingerprint ev'
                pending := removeAssoc st.pending fp }
        else
          recoverPass eventsSnap recoverWaitTime curTime rest st

/-- `getRecoverWaitTime` (eval.go lines 260-266): the stored
`RecoverWaitTime`, with a stored value of exactly 0 coerced to 1. -/
def getRecoverWaitTime (faultCenter : FaultCenterInfo) : Int :=
  if faultCenter.RecoverWaitTime = 0 then 1 else faultCenter.RecoverWaitTime

/-- `AlertRule.Recover` (eval.go lines 155-257).  `getAllEventsOk` models
whether `GetAllEvents(eventCacheKey)` succeeded; on failure the tick aborts
with the state untouched.  Otherwise: pass 1 (PreAlert cleanup and
rule-scoping), pass 2 (pending → Alerting promotion, guarded by a non-empty
pending snapshot), pass 3 (demotion of `activeRuleFingerprints \
curFingerprints` through PendingRecovery to Recovered), with `curTime` the
tick's `time.Now().Unix()`. -/
def Recover (getAllEventsOk : Bool) (ruleId : String)
    (faultCenter : FaultCenterInfo) (curFingerprints : List String)
    (curTime : Int) (st : RedisState) : RedisState :=
  if getAllEventsOk then
    let eventsSnap := st.events
    let p1 := preAlertCleanup ruleId curFingerprints eventsSnap st
    let pendingSnap := p1.1.pending
    let st2 :=
      if pendingSnap.isEmpty then p1.1
      else promotePending eventsSnap pendingSnap curFingerprints p1.1
    let recoverFingerprints := GetSliceDifference p1.2 curFingerprints
    let recoverWaitTime := getRecoverWaitTime faultCenter
    recoverPass eventsSnap recoverWaitTime curTime recoverFingerprints st2
  else
    st

/-- `activeRuleFingerprints` as computed by pass 1 of `Recover`. -/
def activeRuleFingerprints (ruleId : String) (curFingerprints : List String)
    (st : RedisState) : List String :=
  (preAlertCleanup ruleId curFingerprints st.events st).2

/-- The in-process registry state of `AlertRule` (rule scheduler):
`ContextMap` maps `ruleId` to the cancellation handle of its running eval
goroutine; `nextCancelId` numbers freshly created `context.WithCancel`
scopes; `evalTasks` records every `go t.Eval(c, rule)` launch as
`(ruleId, handle)`. -/
structure SchedulerState : Type where
  ContextMap : List (String × Nat)
  nextCancelId : Nat
  evalTasks : List (String × Nat)
deriving DecidableEq, Repr

/-- `AlertRule.Submit` (eval.go lines 42-49): under the mutex, create a fresh
cancellation scope, store its handle in `ContextMap[rule.RuleId]`
(an unconditional Go map assignment), and start an eval task for the rule. -/
def Submit (st : SchedulerState) (ruleId : String) : SchedulerState :=
  { ContextMap := setAssoc st.ContextMap ruleId st.nextCancelId
    nextCancelId := st.nextCancelId + 1
    evalTasks := (ruleId, st.nextCancelId) :: st.evalTasks }

/-- Every cache binding's value carries its own key as `fingerprint`
(the event store upserts and removes by `event.Fingerprint`, so a
consistent store satisfies this). -/
def consistentEvents (events : List (String × AlertEvent)) : Prop :=
  ∀ p ∈ events, p.2.fingerprint = p.1

/-- The cache binds each fingerprint at most once (it models a Go map). -/
def nodupKeys {α : Type} (l : List (String × α)) : Prop :=
  (l.map Prod.fst).Nodup

/-- A cache binding survives pass 1 into `activeRuleFingerprints`: its event
is rule-scoped and is not a PreAlert event absent from `curFingerprints`. -/
def keepActive (ruleId : String) (cur : List String) (p : String × AlertEvent) : Bool :=
  strContains p.2.ruleId ruleId && !(decide (p.2.status = .preAlert ∧ p.1 ∉ cur))

/-- Processing binding `p` in pass 1 removes the cache key `k`: the event is
rule-scoped, PreAlert, absent from `curFingerprints`, and its `fingerprint`
field (the key `RemoveAlertEvent` uses) is `k`. -/
def removesKey (ruleId : String) (cur : List String) (k : String)
    (p : String × AlertEvent) : Prop :=
  strContains p.2.ruleId ruleId = true ∧ p.2.status = .preAlert ∧
    p.1 ∉ cur ∧ p.2.fingerprint = k

/-! ## Association-list lemmas -/

lemma lookupAssoc_setAssoc_self {α : Type} (l : List (String × α)) (k : String) (v : α) :
    lookupAssoc (setAssoc l k v) k = some v := by
  induction l with
  | nil => simp [setAssoc, lookupAssoc]
  | cons p t ih =>
    obtain ⟨k', v'⟩ := p
    by_cases h : k' = k
    · subst h; simp [setAssoc, lookupAssoc]
    · simp [setAssoc, lookupAssoc, h, ih]

lemma lookupAssoc_setAssoc_ne {α : Type} (l : List (String × α)) (k k' : String) (v : α)
    (h : k' ≠ k) : lookupAssoc (setAssoc l k v) k' = lookupAssoc l k' := by
  have h₂ : ¬(k = k') := fun hh => h hh.symm
  induction l with
  | nil => simp [setAssoc, lookupAssoc, h₂]
  | cons p t ih =>
    obtain ⟨k₀, v₀⟩ := p
    by_cases h₀ : k₀ = k
    · subst h₀
      simp [setAssoc, lookupAssoc, h₂]
    · by_cases h₁ : k₀ = k'
      · subst h₁; simp [setAssoc, lookupAssoc, h₀]
      · simp [setAssoc, lookupAssoc, h₀, h₁, ih]

lemma lookupAssoc_removeAssoc_self {α : Type} (l : List (String × α)) (k : String) :
    lookupAssoc (removeAssoc l k) k = none := by
  induction l with
  | nil => simp [removeAssoc, lookupAssoc]
  | cons p t ih =>
    obtain ⟨k', v'⟩ := p
    by_cases h : k' = k
    · simp [removeAssoc, h, ih]
    · simp [removeAssoc, lookupAssoc, h, ih]

lemma lookupAssoc_removeAssoc_ne {α : Type} (l : List (String × α)) (k k' : String)
    (h : k' ≠ k) : lookupAssoc (removeAssoc l k) k' = lookupAssoc l k' := by
  have h₂ : ¬(k = k') := fun hh => h hh.symm
  induction l with
  | nil => simp [removeAssoc]
  | cons p t ih =>
    obtain ⟨k₀, v₀⟩ := p
    by_cases h₀ : k₀ = k
    · subst h₀
      simp [removeAssoc, lookupAssoc, h₂, ih]
    · by_cases h₁ : k₀ = k'
      · subst h₁; simp [removeAssoc, lookupAssoc, h₀]
      · simp [removeAssoc, lookupAssoc, h₀, h₁, ih]

lemma lookupAssoc_mem {α : Type} {l : List (String × α)} {k : String} {v : α}
    (h : lookupAssoc l k = some v) : (k, v) ∈ l := by
  induction l with
  | nil => simp [lookupAssoc] at h
  | cons p t ih =>
    obtain ⟨k', v'⟩ := p
    by_cases hk : k' = k
    · subst hk
      simp [lookupAssoc] at h
      simp [h]
    · simp [lookupAssoc, hk] at h
      exact List.mem_cons_of_mem _ (ih h)

lemma lookupAssoc_of_mem_nodup {α : Type} {l : List (String × α)} {k : String} {v : α}
    (hnd : nodupKeys l) (h : (k, v) ∈ l) : lookupAssoc l k = some v := by
  induction l with
  | nil => simp at h
  | cons p t ih =>
    obtain ⟨k', v'⟩ := p
    rcases List.mem_cons.mp h with h₀ | h₀
    · simp only [Prod.mk.injEq] at h₀
      simp [lookupAssoc, h₀.1.symm, h₀.2]
    · have hk : k' ≠ k := by
        intro hkk
        subst hkk
        have : k' ∈ t.map Prod.fst := List.mem_map.mpr ⟨(k', v), h₀, rfl⟩
        exact (List.nodup_cons.mp hnd).1 this
      have hnd' : nodupKeys t := (List.nodup_cons.mp hnd).2
      simp [lookupAssoc, hk, ih hnd' h₀]

/-! ## Pass 1 (`preAlertCleanup`) lemmas -/

lemma preAlertCleanup_pending (ruleId : String) (cur : List String) :
    ∀ (evs : List (String × AlertEvent)) (st : RedisState),
      (preAlertCleanup ruleId cur evs st).1.pending = st.pending
  | [], _ => rfl
  | (fp, ev) :: rest, st => by
    simp only [preAlertCleanup]
    by_cases hc : strContains ev.ruleId ruleId
    · rw [if_pos hc]
      by_cases hr : ev.status = .preAlert ∧ fp ∉ cur
      · rw [if_pos hr]
        exact preAlertCleanup_pending ruleId cur rest _
      · rw [if_neg hr]
        exact preAlertCleanup_pending ruleId cur rest st
    · rw [if_neg hc]
      exact preAlertCleanup_pending ruleId cur rest st

lemma preAlertCleanup_active (ruleId : String) (cur : List String) :
    ∀ (evs : List (String × AlertEvent)) (st : RedisState),
      (preAlertCleanup ruleId cur evs st).2
        = (evs.filter (keepActive ruleId cur)).map Prod.fst
  | [], _ => rfl
  | (fp, ev) :: rest, st => by
    simp only [preAlertCleanup, List.filter_cons]
    by_cases hc : strContains ev.ruleId ruleId
    · rw [if_pos hc]
      by_cases hr : ev.status = .preAlert ∧ fp ∉ cur
      · have hk : keepActive ruleId cur (fp, ev) = false := by
          simp [keepActive, hr]
        rw [if_pos hr, hk]
        simp only [Bool.false_eq_true, if_false]
        exact preAlertCleanup_active ruleId cur rest _
      · have hk : keepActive ruleId cur (fp, ev) = true := by
          simp [keepActive, hc, hr]
        rw [if_neg hr, hk]
        simp only [if_true, List.map_cons]
        exact congrArg (fp :: ·) (preAlertCleanup_active ruleId cur rest st)
    · have hk : keepActive ruleId cur (fp, ev) = false := by
        simp [keepActive, hc]
      rw [if_neg hc, hk]
      simp only [Bool.false_eq_true, if_false]
      exact preAlertCleanup_active ruleId cur rest st

lemma preAlertCleanup_events_frame (ruleId : String) (cur : List String) (k : String) :
    ∀ (evs : List (String × AlertEvent)) (st : RedisState),
      (∀ p ∈ evs, ¬ removesKey ruleId cur k p) →
      lookupAssoc (preAlertCleanup ruleId cur evs st).1.events k = lookupAssoc st.events k
  | [], _, _ => rfl
  | (fp, ev) :: rest, st, h => by
    have hrest : ∀ p ∈ rest, ¬ removesKey ruleId cur k p :=
      fun p hp => h p (List.mem_cons_of_mem _ hp)
    simp only [preAlertCleanup]
    by_cases hc : strContains ev.ruleId ruleId
    · rw [if_pos hc]
      by_cases hr : ev.status = .preAlert ∧ fp ∉ cur
      · have hne : ev.fingerprint ≠ k := by
          intro hfk
          exact h (fp, ev) (List.mem_cons_self _ _) ⟨hc, hr.1, hr.2, hfk⟩
        rw [if_pos hr]
        rw [preAlertCleanup_events_frame ruleId cur k rest _ hrest]
        exact lookupAssoc_removeAssoc_ne _ _ _ (fun hh => hne hh.symm)
      · rw [if_neg hr]
        exact preAlertCleanup_events_frame ruleId cur k rest st hrest
    · rw [if_neg hc]
      exact preAlertCleanup_events_frame ruleId cur k rest st hrest

lemma preAlertCleanup_events_none (ruleId : String) (cur : List String) (k : String) :
    ∀ (evs : List (String × AlertEvent)) (st : RedisState),
      lookupAssoc st.events k = none →
      lookupAssoc (preAlertCleanup ruleId cur evs st).1.events k = none
  | [], _, h => h
  | (fp, ev) :: rest, st, h => by
    simp only [preAlertCleanup]
    by_cases hc : strContains ev.ruleId ruleId
    · rw [if_pos hc]
      by_cases hr : ev.status = .preAlert ∧ fp ∉ cur
      · rw [if_pos hr]
        refine preAlertCleanup_events_none ruleId cur k rest _ ?_
        by_cases hfk : ev.fingerprint = k
        · show lookupAssoc (removeAssoc st.events ev.fingerprint) k = none
          rw [hfk]
          exact lookupAssoc_removeAssoc_self _ _
        · show lookupAssoc (removeAssoc st.events ev.fingerprint) k = none
          rw [lookupAssoc_removeAssoc_ne _ _ _ (fun hh => hfk hh.symm)]
          exact h
      · rw [if_neg hr]
        exact preAlertCleanup_events_none ruleId cur k rest st h
    · rw [if_neg hc]
      exact preAlertCleanup_events_none ruleId cur k rest st h

lemma preAlertCleanup_events_removed (ruleId : String) (cur : List String) (k : String) :
    ∀ (evs : List (String × AlertEvent)) (st : RedisState),
      (∃ p ∈ evs, removesKey ruleId cur k p) →
      lookupAssoc (preAlertCleanup ruleId cur evs st).1.events k = none
  | [], _, h => by simp at h
  | (fp, ev) :: rest, st, h => by
    simp only [preAlertCleanup]
    by_cases hhead : removesKey ruleId cur k (fp, ev)
    · obtain ⟨hc, hs, hncur, hfk⟩ := hhead
      have hr : ev.status = .preAlert ∧ fp ∉ cur := ⟨hs, hncur⟩
      rw [if_pos hc, if_pos hr]
      refine preAlertCleanup_events_none ruleId cur k rest _ ?_
      show lookupAssoc (removeAssoc st.events ev.fingerprint) k = none
      rw [hfk]
      exact lookupAssoc_removeAssoc_self _ _
    · have hrest : ∃ p ∈ rest, removesKey ruleId cur k p := by
        rcases h with ⟨p, hp, hrem⟩
        rcases List.mem_cons.mp hp with h₀ | h₀
        · exact absurd (h₀ ▸ hrem) hhead
        · exact ⟨p, h₀, hrem⟩
      by_cases hc : strContains ev.ruleId ruleId
      · rw [if_pos hc]
        by_cases hr : ev.status = .preAlert ∧ fp ∉ cur
        · rw [if_pos hr]
          exact preAlertCleanup_events_removed ruleId cur k rest _ hrest
        · rw [if_neg hr]
          exact preAlertCleanup_events_removed ruleId cur k rest st hrest
      · rw [if_neg hc]
        exact preAlertCleanup_events_removed ruleId cur k rest st hrest

/-! ## `TransitionStatus` lemmas -/

lemma TransitionStatus_some {ev ev' : AlertEvent} {t : EventStatus}
    (h : TransitionStatus ev t = some ev') : ev' = { ev with status := t } := by
  unfold TransitionStatus at h
  split at h
  · exact (Option.some.injEq _ _ ▸ h).symm
  · exact absurd h (by simp)

lemma TransitionStatus_fingerprint {ev ev' : AlertEvent} {t : EventStatus}
    (h : TransitionStatus ev t = some ev') : ev'.fingerprint = ev.fingerprint := by
  rw [TransitionStatus_some h]

lemma TransitionStatus_alerting_of_ne_recovered {ev : AlertEvent}
    (h : ev.status ≠ .recovered) :
    TransitionStatus ev .alerting = some { ev with status := .alerting } := by
  unfold TransitionStatus
  cases hs : ev.status <;> simp_all [canTransition]

/-! ## Pass 2 (`promotePending`) lemmas -/

lemma promotePending_nil_snap (eventsSnap : List (String × AlertEvent)) :
    ∀ (fps : List String) (st : RedisState),
      promotePending eventsSnap [] fps st = st
  | [], _ => rfl
  | _ :: rest, st => by
    simp only [promotePending, lookupAssoc]
    exact promotePending_nil_snap eventsSnap rest st

lemma promotePending_step_other (eventsSnap : List (String × AlertEvent))
    (pendingSnap : List (String × Int)) (h : String) (rest : List String)
    (st : RedisState) (k : String) (hk : h ≠ k) (hcons : consistentEvents eventsSnap) :
    ∃ st' : RedisState,
      promotePending eventsSnap pendingSnap (h :: rest) st
        = promotePending eventsSnap pendingSnap rest st' ∧
      lookupAssoc st'.events k = lookupAssoc st.events k ∧
      lookupAssoc st'.pending k = lookupAssoc st.pending k := by
  cases hp : lookupAssoc pendingSnap h with
  | none => exact ⟨st, by simp only [promotePending, hp], rfl, rfl⟩
  | some w =>
    cases he : lookupAssoc eventsSnap h with
    | none => exact ⟨st, by simp only [promotePending, hp, he], rfl, rfl⟩
    | some ev =>
      cases ht : TransitionStatus ev .alerting with
      | none => exact ⟨st, by simp only [promotePending, hp, he, ht], rfl, rfl⟩
      | some ev' =>
        have hfp : ev.fingerprint = h := hcons (h, ev) (lookupAssoc_mem he)
        have hfp' : ev'.fingerprint = h := (TransitionStatus_fingerprint ht).trans hfp
        refine ⟨{ st with events := setAssoc st.events ev'.fingerprint ev'
                          pending := removeAssoc st.pending h },
                by simp only [promotePending, hp, he, ht], ?_, ?_⟩
        · rw [hfp']
          exact lookupAssoc_setAssoc_ne _ _ _ _ (fun hh => hk hh.symm)
        · exact lookupAssoc_removeAssoc_ne _ _ _ (fun hh => hk hh.symm)

lemma promotePending_frame (eventsSnap : List (String × AlertEvent))
    (pendingSnap : List (String × Int)) (k : String) (hcons : consistentEvents eventsSnap) :
    ∀ (fps : List String) (st : RedisState),
      (lookupAssoc pendingSnap k = none ∨ k ∉ fps) →
      lookupAssoc (promotePending eventsSnap pendingSnap fps st).events k
          = lookupAssoc st.events k ∧
      lookupAssoc (promotePending eventsSnap pendingSnap fps st).pending k
          = lookupAssoc st.pending k
  | [], _, _ => ⟨rfl, rfl⟩
  | h :: rest, st, hside => by
    by_cases hk : h = k
    · subst hk
      have hp : lookupAssoc pendingSnap h = none := by
        rcases hside with h₀ | h₀
        · exact h₀
        · exact absurd (List.mem_cons_self _ _) h₀
      simp only [promotePending, hp]
      refine promotePending_frame eventsSnap pendingSnap h hcons rest st ?_
      exact Or.inl hp
    · obtain ⟨st', heq, he, hpd⟩ :=
        promotePending_step_other eventsSnap pendingSnap h rest st k hk hcons
      rw [heq]
      have hside' : lookupAssoc pendingSnap k = none ∨ k ∉ rest := by
        rcases hside with h₀ | h₀
        · exact Or.inl h₀
        · exact Or.inr (fun hm => h₀ (List.mem_cons_of_mem _ hm))
      obtain ⟨h₁, h₂⟩ := promotePending_frame eventsSnap pendingSnap k hcons rest st' hside'
      exact ⟨h₁.trans he, h₂.trans hpd⟩

lemma promotePending_stable (eventsSnap : List (String × AlertEvent))
    (pendingSnap : List (String × Int)) (fp : String) (ev ev' : AlertEvent)
    (hcons : consistentEvents eventsSnap)
    (hev : lookupAssoc eventsSnap fp = some ev)
    (htr : TransitionStatus ev .alerting = some ev') :
    ∀ (fps : List String) (st : RedisState),
      lookupAssoc st.events fp = some ev' →
      lookupAssoc st.pending fp = none →
      lookupAssoc (promotePending eventsSnap pendingSnap fps st).events fp = some ev' ∧
      lookupAssoc (promotePending eventsSnap pendingSnap fps st).pending fp = none
  | [], _, he, hp => ⟨he, hp⟩
  | h :: rest, st, he, hp => by
    by_cases hk : h = fp
    · subst hk
      have hfpr : ev.fingerprint = h := hcons (h, ev) (lookupAssoc_mem hev)
      have hfpr' : ev'.fingerprint = h := (TransitionStatus_fingerprint htr).trans hfpr
      cases hps : lookupAssoc pendingSnap h with
      | none =>
        simp only [promotePending, hps]
        exact promotePending_stable eventsSnap pendingSnap h ev ev' hcons hev htr rest st he hp
      | some w =>
        simp only [promotePending, hps, hev, htr]
        refine promotePending_stable eventsSnap pendingSnap h ev ev' hcons hev htr rest _ ?_ ?_
        · show lookupAssoc (setAssoc st.events ev'.fingerprint ev') h = some ev'
          rw [hfpr']
          exact lookupAssoc_setAssoc_self _ _ _
        · show lookupAssoc (removeAssoc st.pending h) h = none
          exact lookupAssoc_removeAssoc_self _ _
    · obtain ⟨st', heq, hpe, hpd⟩ :=
        promotePending_step_other eventsSnap pendingSnap h rest st fp hk hcons
      rw [heq]
      exact promotePending_stable eventsSnap pendingSnap fp ev ev' hcons hev htr rest st'
        (hpe.trans he) (hpd.trans hp)

lemma promotePending_effect (eventsSnap : List (String × AlertEvent))
    (pendingSnap : List (String × Int)) (fp : String) (w : Int) (ev ev' : AlertEvent)
    (hcons : consistentEvents eventsSnap)
    (hps : lookupAssoc pendingSnap fp = some w)
    (hev : lookupAssoc eventsSnap fp = some ev)
    (htr : TransitionStatus ev .alerting = some ev') :
    ∀ (fps : List String) (st : RedisState), fp ∈ fps →
      lookupAssoc (promotePending eventsSnap pendingSnap fps st).events fp = some ev' ∧
      lookupAssoc (promotePending eventsSnap pendingSnap fps st).pending fp = none
  | [], _, hm => absurd hm (List.not_mem_nil _)
  | h :: rest, st, hm => by
    by_cases hk : h = fp
    · subst hk
      have hfpr : ev.fingerprint = h := hcons (h, ev) (lookupAssoc_mem hev)
      have hfpr' : ev'.fingerprint = h := (TransitionStatus_fingerprint htr).trans hfpr
      simp only [promotePending, hps, hev, htr]
      refine promotePending_stable eventsSnap pendingSnap h ev ev' hcons hev htr rest _ ?_ ?_
      · show lookupAssoc (setAssoc st.events ev'.fingerprint ev') h = some ev'
        rw [hfpr']
        exact lookupAssoc_setAssoc_self _ _ _
      · show lookupAssoc (removeAssoc st.pending h) h = none
        exact lookupAssoc_removeAssoc_self _ _
    · have hm' : fp ∈ rest := by
        rcases List.mem_cons.mp hm with h₀ | h₀
        · exact absurd h₀.symm hk
        · exact h₀
      obtain ⟨st', heq, _, _⟩ :=
        promotePending_step_other eventsSnap pendingSnap h rest st fp hk hcons
      rw [heq]
      exact promotePending_effect eventsSnap pendingSnap fp w ev ev' hcons hps hev htr rest st' hm'

/-! ## Pass 3 (`recoverPass`) lemmas -/

lemma recoverPass_step_other (eventsSnap : List (String × AlertEvent))
    (W now : Int) (h : String) (rest : List String) (st : RedisState) (k : String)
    (hk : h ≠ k) (hcons : consistentEvents eventsSnap) :
    ∃ st' : RedisState,
      recoverPass eventsSnap W now (h :: rest) st
        = recoverPass eventsSnap W now rest st' ∧
      lookupAssoc st'.events k = lookupAssoc st.events k ∧
      lookupAssoc st'.pending k = lookupAssoc st.pending k := by
  have hkk : ¬(k = h) := fun hh => hk hh.symm
  cases he : lookupAssoc eventsSnap h with
  | none => exact ⟨st, by simp only [recoverPass, he], rfl, rfl⟩
  | some ev =>
    have hfp : ev.fingerprint = h := hcons (h, ev) (lookupAssoc_mem he)
    cases hp : lookupAssoc st.pending h with
    | none =>
      cases ht : TransitionStatus ev .pendingRecovery with
      | none =>
        refine ⟨{ st with pending := setAssoc st.pending h now },
          by simp only [recoverPass, he, hp, ht], rfl, ?_⟩
        exact lookupAssoc_setAssoc_ne _ _ _ _ hk.symm
      | some ev' =>
        have hfp' : ev'.fingerprint = h := (TransitionStatus_fingerprint ht).trans hfp
        refine ⟨{ st with events := setAssoc st.events ev'.fingerprint ev'
                          pending := setAssoc st.pending h now },
          by simp only [recoverPass, he, hp, ht], ?_, ?_⟩
        · rw [hfp']
          exact lookupAssoc_setAssoc_ne _ _ _ _ hk.symm
        · exact lookupAssoc_setAssoc_ne _ _ _ _ hk.symm
    | some wTime =>
      by_cases hcond : wTime + W ≤ now ∧ ev.status = .pendingRecovery
      · cases ht : TransitionStatus ev .recovered with
        | none =>
          refine ⟨st, ?_, rfl, rfl⟩
          simp only [recoverPass, he, hp]
          rw [if_pos hcond]
          simp only [ht]
        | some ev' =>
          have hfp' : ev'.fingerprint = h := (TransitionStatus_fingerprint ht).trans hfp
          refine ⟨{ st with events := setAssoc st.events ev'.fingerprint ev'
                            pending := removeAssoc st.pending h }, ?_, ?_, ?_⟩
          · simp only [recoverPass, he, hp]
            rw [if_pos hcond]
            simp only [ht]
          · rw [hfp']
            exact lookupAssoc_setAssoc_ne _ _ _ _ hk.symm
          · exact lookupAssoc_removeAssoc_ne _ _ _ hk.symm
      · refine ⟨st, ?_, rfl, rfl⟩
        simp only [recoverPass, he, hp]
        rw [if_neg hcond]

lemma recoverPass_frame (eventsSnap : List (String × AlertEvent))
    (W now : Int) (k : String) (hcons : consistentEvents eventsSnap) :
    ∀ (fps : List String) (st : RedisState), k ∉ fps →
      lookupAssoc (recoverPass eventsSnap W now fps st).events k
          = lookupAssoc st.events k ∧
      lookupAssoc (recoverPass eventsSnap W now fps st).pending k
          = lookupAssoc st.pending k
  | [], _, _ => ⟨rfl, rfl⟩
  | h :: rest, st, hm => by
    have hk : h ≠ k := fun hh => hm (hh ▸ List.mem_cons_self _ _)
    have hm' : k ∉ rest := fun hh => hm (List.mem_cons_of_mem _ hh)
    obtain ⟨st', heq, he, hp⟩ :=
      recoverPass_step_other eventsSnap W now h rest st k hk hcons
    rw [heq]
    obtain ⟨h₁, h₂⟩ := recoverPass_frame eventsSnap W now k hcons rest st' hm'
    exact ⟨h₁.trans he, h₂.trans hp⟩

lemma recoverPass_first_absent (eventsSnap : List (String × AlertEvent))
    (W now : Int) (fp : String) (ev : AlertEvent) (hcons : consistentEvents eventsSnap)
    (hev : lookupAssoc eventsSnap fp = some ev) :
    ∀ (fps : List String) (st : RedisState), fps.Nodup → fp ∈ fps →
      lookupAssoc st.pending fp = none →
      lookupAssoc (recoverPass eventsSnap W now fps st).pending fp = some now ∧
      lookupAssoc (recoverPass eventsSnap W now fps st).events fp
        = (match TransitionStatus ev .pendingRecovery with
           | none => lookupAssoc st.events fp
           | some ev' => some ev')
  | [], _, _, hm, _ => absurd hm (List.not_mem_nil _)
  | h :: rest, st, hnd, hm, hp => by
    by_cases hk : h = fp
    · subst hk
      have hnrest : h ∉ rest := (List.nodup_cons.mp hnd).1
      have hfpr : ev.fingerprint = h := hcons (h, ev) (lookupAssoc_mem hev)
      cases ht : TransitionStatus ev .pendingRecovery with
      | none =>
        simp only [recoverPass, hev, hp, ht]
        obtain ⟨h₁, h₂⟩ := recoverPass_frame eventsSnap W now h hcons rest
          { st with pending := setAssoc st.pending h now } hnrest
        refine ⟨h₂.trans ?_, h₁⟩
        exact lookupAssoc_setAssoc_self _ _ _
      | some ev' =>
        have hfpr' : ev'.fingerprint = h := (TransitionStatus_fingerprint ht).trans hfpr
        simp only [recoverPass, hev, hp, ht]
        obtain ⟨h₁, h₂⟩ := recoverPass_frame eventsSnap W now h hcons rest
          { st with events := setAssoc st.events ev'.fingerprint ev'
                    pending := setAssoc st.pending h now } hnrest
        constructor
        · refine h₂.trans ?_
          exact lookupAssoc_setAssoc_self _ _ _
        · refine h₁.trans ?_
          show lookupAssoc (setAssoc st.events ev'.fingerprint ev') h = some ev'
          rw [hfpr']
          exact lookupAssoc_setAssoc_self _ _ _
    · have hm' : fp ∈ rest := by
        rcases List.mem_cons.mp hm with h₀ | h₀
        · exact absurd h₀.symm hk
        · exact h₀
      obtain ⟨st', heq, he, hpd⟩ :=
        recoverPass_step_other eventsSnap W now h rest st fp hk hcons
      rw [heq]
      obtain ⟨h₁, h₂⟩ := recoverPass_first_absent eventsSnap W now fp ev hcons hev rest st'
        (List.nodup_cons.mp hnd).2 hm' (hpd.trans hp)
      refine ⟨h₁, ?_⟩
      cases ht : TransitionStatus ev .pendingRecovery with
      | none =>
        simp only [ht] at h₂
        exact h₂.trans he
      | some ev' => simp only [ht] at h₂ ⊢; exact h₂

lemma recoverPass_waiting (eventsSnap : List (String × AlertEvent))
    (W now : Int) (fp : String) (ev : AlertEvent) (w : Int)
    (hcons : consistentEvents eventsSnap)
    (hev : lookupAssoc eventsSnap fp = some ev)
    (hcond : ¬(w + W ≤ now ∧ ev.status = .pendingRecovery)) :
    ∀ (fps : List String) (st : RedisState), fps.Nodup → fp ∈ fps →
      lookupAssoc st.pending fp = some w →
      lookupAssoc (recoverPass eventsSnap W now fps st).pending fp = some w ∧
      lookupAssoc (recoverPass eventsSnap W now fps st).events fp
        = lookupAssoc st.events fp
  | [], _, _, hm, _ => absurd hm (List.not_mem_nil _)
  | h :: rest, st, hnd, hm, hp => by
    by_cases hk : h = fp
    · subst hk
      have hnrest : h ∉ rest := (List.nodup_cons.mp hnd).1
      simp only [recoverPass, hev, hp]
      rw [if_neg hcond]
      obtain ⟨h₁, h₂⟩ := recoverPass_frame eventsSnap W now h hcons rest st hnrest
      exact ⟨h₂.trans hp, h₁⟩
    · have hm' : fp ∈ rest := by
        rcases List.mem_cons.mp hm with h₀ | h₀
        · exact absurd h₀.symm hk
        · exact h₀
      obtain ⟨st', heq, he, hpd⟩ :=
        recoverPass_step_other eventsSnap W now h rest st fp hk hcons
      rw [heq]
      obtain ⟨h₁, h₂⟩ := recoverPass_waiting eventsSnap W now fp ev w hcons hev hcond rest st'
        (List.nodup_cons.mp hnd).2 hm' (hpd.trans hp)
      exact ⟨h₁, h₂.trans he⟩

lemma recoverPass_recovers (eventsSnap : List (String × AlertEvent))
    (W now : Int) (fp : String) (ev : AlertEvent) (w : Int)
    (hcons : consistentEvents eventsSnap)
    (hev : lookupAssoc eventsSnap fp = some ev)
    (hst : ev.status = .pendingRecovery) (hthr : w + W ≤ now) :
    ∀ (fps : List String) (st : RedisState), fps.Nodup → fp ∈ fps →
      lookupAssoc st.pending fp = some w →
      lookupAssoc (recoverPass eventsSnap W now fps st).pending fp = none ∧
      lookupAssoc (recoverPass eventsSnap W now fps st).events fp
        = some { ev with status := .recovered }
  | [], _, _, hm, _ => absurd hm (List.not_mem_nil _)
  | h :: rest, st, hnd, hm, hp => by
    by_cases hk : h = fp
    · subst hk
      have hnrest : h ∉ rest := (List.nodup_cons.mp hnd).1
      have hfpr : ev.fingerprint = h := hcons (h, ev) (lookupAssoc_mem hev)
      have ht : TransitionStatus ev .recovered
          = some { ev with status := .recovered } := by
        unfold TransitionStatus
        rw [if_pos]
        rw [hst]
        rfl
      simp only [recoverPass, hev, hp]
      rw [if_pos ⟨hthr, hst⟩]
      simp only [ht]
      obtain ⟨h₁, h₂⟩ := recoverPass_frame eventsSnap W now h hcons rest
        { st with
            events := setAssoc st.events
              (AlertEvent.fingerprint { ev with status := .recovered })
              { ev with status := .recovered }
            pending := removeAssoc st.pending h } hnrest
      constructor
      · refine h₂.trans ?_
        exact lookupAssoc_removeAssoc_self _ _
      · refine h₁.trans ?_
        show lookupAssoc (setAssoc st.events
          (AlertEvent.fingerprint { ev with status := .recovered })
          { ev with status := .recovered }) h = _
        have : AlertEvent.fingerprint { ev with status := .recovered } = h := hfpr
        rw [this]
        exact lookupAssoc_setAssoc_self _ _ _
    · have hm' : fp ∈ rest := by
        rcases List.mem_cons.mp hm with h₀ | h₀
        · exact absurd h₀.symm hk
        · exact h₀
      obtain ⟨st', heq, _, hpd⟩ :=
        recoverPass_step_other eventsSnap W now h rest st fp hk hcons
      rw [heq]
      exact recoverPass_recovers eventsSnap W now fp ev w hcons hev hst hthr rest st'
        (List.nodup_cons.mp hnd).2 hm' (hpd.trans hp)

/-! ## `Recover` glue lemmas -/

lemma Recover_true_eq (ruleId : String) (fc : FaultCenterInfo) (cur : List String)
    (curTime : Int) (st : RedisState) :
    Recover true ruleId fc cur curTime st
      = recoverPass st.events (getRecoverWaitTime fc) curTime
          (GetSliceDifference (preAlertCleanup ruleId cur st.events st).2 cur)
          (promotePending st.events (preAlertCleanup ruleId cur st.events st).1.pending cur
            (preAlertCleanup ruleId cur st.events st).1) := by
  simp only [Recover, if_true]
  by_cases hemp : (preAlertCleanup ruleId cur st.events st).1.pending.isEmpty
  · rw [if_pos hemp]
    have hnil : (preAlertCleanup ruleId cur st.events st).1.pending = [] :=
      List.isEmpty_iff.mp hemp
    rw [hnil, promotePending_nil_snap]
  · rw [if_neg hemp]

lemma mem_active_of {ruleId : String} {cur : List String} {st : RedisState}
    {fp : String} {ev : AlertEvent} (hmem : (fp, ev) ∈ st.events)
    (hk : keepActive ruleId cur (fp, ev) = true) :
    fp ∈ activeRuleFingerprints ruleId cur st := by
  rw [activeRuleFingerprints, preAlertCleanup_active]
  exact List.mem_map.mpr ⟨(fp, ev), List.mem_filter.mpr ⟨hmem, hk⟩, rfl⟩

lemma not_mem_active {ruleId : String} {cur : List String} {st : RedisState}
    {fp : String} {ev : AlertEvent} (hnd : nodupKeys st.events)
    (hlook : lookupAssoc st.events fp = some ev)
    (hk : keepActive ruleId cur (fp, ev) = false) :
    fp ∉ activeRuleFingerprints ruleId cur st := by
  rw [activeRuleFingerprints, preAlertCleanup_active]
  intro hmem
  obtain ⟨p, hp, hfst⟩ := List.mem_map.mp hmem
  obtain ⟨hpe, hpk⟩ := List.mem_filter.mp hp
  obtain ⟨fp', ev'⟩ := p
  cases hfst
  have hl : lookupAssoc st.events fp' = some ev' := lookupAssoc_of_mem_nodup hnd hpe
  rw [hlook] at hl
  rw [Option.some.injEq] at hl
  rw [hl] at hk
  rw [hpk] at hk
  exact Bool.true_eq_false ▸ hk

lemma active_nodup {ruleId : String} {cur : List String} {st : RedisState}
    (hnd : nodupKeys st.events) :
    (activeRuleFingerprints ruleId cur st).Nodup := by
  rw [activeRuleFingerprints, preAlertCleanup_active]
  have hsub : List.Sublist ((st.events.filter (keepActive ruleId cur)).map Prod.fst)
      (st.events.map Prod.fst) := (List.filter_sublist _).map _
  exact hnd.sublist hsub

lemma mem_sliceDiff {a b : List String} {fp : String} :
    fp ∈ GetSliceDifference a b ↔ fp ∈ a ∧ fp ∉ b := by
  simp [GetSliceDifference]

lemma sliceDiff_nodup {a b : List String} (h : a.Nodup) :
    (GetSliceDifference a b).Nodup := h.filter _

lemma no_removesKey_of_status {ruleId : String} {cur : List String} {st : RedisState}
    {fp : String} {ev : AlertEvent} (hnd : nodupKeys st.events)
    (hcons : consistentEvents st.events) (hlook : lookupAssoc st.events fp = some ev)
    (hne : ev.status ≠ .preAlert) :
    ∀ p ∈ st.events, ¬ removesKey ruleId cur fp p := by
  rintro p hp ⟨_, hs, _, hfk⟩
  have hk : p.1 = fp := (hcons p hp).symm.trans hfk
  have hl : lookupAssoc st.events fp = some p.2 :=
    lookupAssoc_of_mem_nodup hnd (by rw [← hk]; exact hp)
  rw [hlook, Option.some.injEq] at hl
  exact hne (hl ▸ hs)

lemma no_removesKey_of_not_scoped {ruleId : String} {cur : List String} {st : RedisState}
    {fp : String} {ev : AlertEvent} (hnd : nodupKeys st.events)
    (hcons : consistentEvents st.events) (hlook : lookupAssoc st.events fp = some ev)
    (hnc : strContains ev.ruleId ruleId = false) :
    ∀ p ∈ st.events, ¬ removesKey ruleId cur fp p := by
  rintro p hp ⟨hc, _, _, hfk⟩
  have hk : p.1 = fp := (hcons p hp).symm.trans hfk
  have hl : lookupAssoc st.events fp = some p.2 :=
    lookupAssoc_of_mem_nodup hnd (by rw [← hk]; exact hp)
  rw [hlook, Option.some.injEq] at hl
  rw [← hl, hnc] at hc
  exact Bool.false_ne_true hc

/-! ## Single-tick evaluation lemmas for the hysteresis scenario -/

lemma Recover_tick_first (ruleId fp : String) (ev : AlertEvent) (fc : FaultCenterInfo)
    (t0 : Int) (hst : ev.status = .alerting) (hfpr : ev.fingerprint = fp)
    (hcont : strContains ev.ruleId ruleId = true) :
    Recover true ruleId fc [] t0 ⟨[(fp, ev)], []⟩
      = ⟨[(fp, { ev with status := .pendingRecovery })], [(fp, t0)]⟩ := by
  have hne : ¬(ev.status = .preAlert ∧ fp ∉ ([] : List String)) := by
    rw [hst]
    rintro ⟨h1, _⟩
    exact absurd h1 (by decide)
  rw [Recover_true_eq]
  simp [preAlertCleanup, promotePending, recoverPass, GetSliceDifference,
    lookupAssoc, setAssoc, removeAssoc, TransitionStatus, canTransition,
    hst, hfpr, hcont, hne]

lemma Recover_tick_hold (ruleId fp : String) (ev : AlertEvent) (fc : FaultCenterInfo)
    (t0 t : Int) (hst : ev.status = .pendingRecovery) (hfpr : ev.fingerprint = fp)
    (hcont : strContains ev.ruleId ruleId = true)
    (hlt : t < t0 + getRecoverWaitTime fc) :
    Recover true ruleId fc [] t ⟨[(fp, ev)], [(fp, t0)]⟩ = ⟨[(fp, ev)], [(fp, t0)]⟩ := by
  have hne : ¬(ev.status = .preAlert ∧ fp ∉ ([] : List String)) := by
    rw [hst]
    rintro ⟨h1, _⟩
    exact absurd h1 (by decide)
  have hcond : ¬(t0 + getRecoverWaitTime fc ≤ t ∧ ev.status = .pendingRecovery) := by
    rintro ⟨h1, _⟩
    exact absurd h1 (not_le.mpr hlt)
  rw [Recover_true_eq]
  simp [preAlertCleanup, promotePending, recoverPass, GetSliceDifference,
    lookupAssoc, hst, hfpr, hcont, hne, hcond]
  intro h
  exact absurd h (not_le.mpr hlt)

lemma Recover_tick_final (ruleId fp : String) (ev : AlertEvent) (fc : FaultCenterInfo)
    (t0 tEnd : Int) (hst : ev.status = .pendingRecovery) (hfpr : ev.fingerprint = fp)
    (hcont : strContains ev.ruleId ruleId = true)
    (hge : t0 + getRecoverWaitTime fc ≤ tEnd) :
    Recover true ruleId fc [] tEnd ⟨[(fp, ev)], [(fp, t0)]⟩
      = ⟨[(fp, { ev with status := .recovered })], []⟩ := by
  have hne : ¬(ev.status = .preAlert ∧ fp ∉ ([] : List String)) := by
    rw [hst]
    rintro ⟨h1, _⟩
    exact absurd h1 (by decide)
  rw [Recover_true_eq]
  simp [preAlertCleanup, promotePending, recoverPass, GetSliceDifference,
    lookupAssoc, setAssoc, removeAssoc, TransitionStatus, canTransition,
    hst, hfpr, hcont, hne, hge]

/-! ## Claim theorems -/

/-- C6: if `GetAllEvents(eventCacheKey)` returns an error, `Recover` returns
immediately and the tick performs no writes at all: the event cache and the
pending-recovery table are both left exactly as they were. -/
theorem Recover_aborts_on_getAllEvents_error (ruleId : String) (fc : FaultCenterInfo)
    (cur : List String) (curTime : Int) (st : RedisState) :
    Recover false ruleId fc cur curTime st = st := rfl

/-- C2 counterexample: the registry already holds handle `0` for rule `r1`,
yet `Submit` replaces the stored handle and starts a new evaluation task —
the claim that an existing entry is left untouched and no task starts is
false on the code. -/
theorem Submit_overwrites_existing_cex :
    lookupAssoc (Submit ⟨[("r1", 0)], 1, [("r1", 0)]⟩ "r1").ContextMap "r1" ≠ some 0 ∧
    (Submit ⟨[("r1", 0)], 1, [("r1", 0)]⟩ "r1").evalTasks ≠ [("r1", 0)] := by
  constructor
  · decide
  · decide

/-- C2 (amended): `Submit(rule)` never checks for an existing entry: it
always stores a fresh cancellation handle under `rule.ruleId` (overwriting
any previous one) and always starts a new evaluation task. -/
theorem Submit_always_registers_fresh (st : SchedulerState) (ruleId : String) :
    lookupAssoc (Submit st ruleId).ContextMap ruleId = some st.nextCancelId ∧
    (Submit st ruleId).evalTasks = (ruleId, st.nextCancelId) :: st.evalTasks ∧
    (Submit st ruleId).nextCancelId = st.nextCancelId + 1 :=
  ⟨lookupAssoc_setAssoc_self _ _ _, rfl, rfl⟩

/-- C8 counterexample: for a stored `RecoverWaitTime` of `-1` the effective
recover-wait time is `-1`, which is not at least 1 second — the "in all
cases at least 1" part of the claim fails for negative stored values. -/
theorem getRecoverWaitTime_negative_cex :
    getRecoverWaitTime ⟨-1⟩ = -1 ∧ ¬(1 ≤ getRecoverWaitTime ⟨-1⟩) := by
  constructor
  · decide
  · decide

/-- C8 (amended): the recover-wait time used by the reconciler is the stored
`RecoverWaitTime` except that a stored value of 0 yields 1, and for every
non-negative stored value the effective value is at least 1 second. -/
theorem getRecoverWaitTime_spec (fc : FaultCenterInfo)
    (h : 0 ≤ fc.RecoverWaitTime) :
    getRecoverWaitTime fc
        = (if fc.RecoverWaitTime = 0 then 1 else fc.RecoverWaitTime) ∧
    1 ≤ getRecoverWaitTime fc := by
  refine ⟨rfl, ?_⟩
  unfold getRecoverWaitTime
  by_cases h0 : fc.RecoverWaitTime = 0
  · rw [if_pos h0]
  · rw [if_neg h0]
    omega

/-- C8 witness: the amended claim applied at stored value 0. -/
theorem getRecoverWaitTime_spec_witness :
    getRecoverWaitTime ⟨0⟩ = (if (0 : Int) = 0 then 1 else (0 : Int)) ∧
    1 ≤ getRecoverWaitTime ⟨0⟩ :=
  getRecoverWaitTime_spec ⟨0⟩ (by decide)

/-- C5: a rule-scoped PreAlert event whose fingerprint is absent from
`curFingerprints` is removed from the event cache by a single call to
`Recover`, and its fingerprint is excluded from `activeRuleFingerprints`
(so the demotion pass never considers it in the same tick). -/
theorem Recover_preAlert_gc (ruleId : String) (fc : FaultCenterInfo)
    (cur : List String) (curTime : Int) (st : RedisState) (fp : String)
    (ev : AlertEvent)
    (hnd : nodupKeys st.events) (hcons : consistentEvents st.events)
    (hlook : lookupAssoc st.events fp = some ev)
    (hst : ev.status = .preAlert)
    (hcont : strContains ev.ruleId ruleId = true)
    (hcur : fp ∉ cur) :
    lookupAssoc (Recover true ruleId fc cur curTime st).events fp = none ∧
    fp ∉ activeRuleFingerprints ruleId cur st := by
  have hmem : (fp, ev) ∈ st.events := lookupAssoc_mem hlook
  have hkf : keepActive ruleId cur (fp, ev) = false := by
    simp [keepActive, hst, hcur]
  have hact : fp ∉ activeRuleFingerprints ruleId cur st := not_mem_active hnd hlook hkf
  refine ⟨?_, hact⟩
  rw [Recover_true_eq]
  have h1 : lookupAssoc (preAlertCleanup ruleId cur st.events st).1.events fp = none :=
    preAlertCleanup_events_removed ruleId cur fp st.events st
      ⟨(fp, ev), hmem, hcont, hst, hcur, hcons (fp, ev) hmem⟩
  obtain ⟨h2e, _⟩ := promotePending_frame st.events
      (preAlertCleanup ruleId cur st.events st).1.pending fp hcons cur
      (preAlertCleanup ruleId cur st.events st).1 (Or.inr hcur)
  have hdiff : fp ∉ GetSliceDifference (preAlertCleanup ruleId cur st.events st).2 cur :=
    fun hm => hact (mem_sliceDiff.mp hm).1
  obtain ⟨h3e, _⟩ := recoverPass_frame st.events (getRecoverWaitTime fc) curTime fp hcons
      (GetSliceDifference (preAlertCleanup ruleId cur st.events st).2 cur)
      (promotePending st.events (preAlertCleanup ruleId cur st.events st).1.pending cur
        (preAlertCleanup ruleId cur st.events st).1) hdiff
  rw [h3e, h2e, h1]

/-- C5 witness: a concrete PreAlert event, absent this tick, is removed. -/
theorem Recover_preAlert_gc_witness :
    lookupAssoc (Recover true "r1" ⟨10⟩ [] 0
        ⟨[("fp2", ⟨"t1", "fc1", "fp2", "r1", .preAlert⟩)], []⟩).events "fp2" = none ∧
    "fp2" ∉ activeRuleFingerprints "r1" []
        ⟨[("fp2", ⟨"t1", "fc1", "fp2", "r1", .preAlert⟩)], []⟩ :=
  Recover_preAlert_gc "r1" ⟨10⟩ [] 0
    ⟨[("fp2", ⟨"t1", "fc1", "fp2", "r1", .preAlert⟩)], []⟩ "fp2"
    ⟨"t1", "fc1", "fp2", "r1", .preAlert⟩
    (by unfold nodupKeys; decide) (by unfold consistentEvents; decide)
    (by decide) rfl (by decide) (by decide)

/-- C10: in the demotion pass, the pending-table write happens before the
status transition is attempted; if the transition to PendingRecovery fails
(here: the event is already Recovered, a terminal status), the fresh
`pending[fp] := curTime` entry persists even though the event was never
written back. -/
theorem Recover_pending_persists_on_failed_transition (ruleId : String)
    (fc : FaultCenterInfo) (cur : List String) (curTime : Int) (st : RedisState)
    (fp : String) (ev : AlertEvent)
    (hnd : nodupKeys st.events) (hcons : consistentEvents st.events)
    (hlook : lookupAssoc st.events fp = some ev)
    (hst : ev.status = .recovered)
    (hcont : strContains ev.ruleId ruleId = true)
    (hcur : fp ∉ cur)
    (hpend : lookupAssoc st.pending fp = none) :
    lookupAssoc (Recover true ruleId fc cur curTime st).pending fp = some curTime ∧
    lookupAssoc (Recover true ruleId fc cur curTime st).events fp = some ev := by
  rw [Recover_true_eq]
  have hmem : (fp, ev) ∈ st.events := lookupAssoc_mem hlook
  have hkt : keepActive ruleId cur (fp, ev) = true := by
    simp [keepActive, hcont, hst]
  have hact : fp ∈ activeRuleFingerprints ruleId cur st := mem_active_of hmem hkt
  have hdmem : fp ∈ GetSliceDifference (preAlertCleanup ruleId cur st.events st).2 cur :=
    mem_sliceDiff.mpr ⟨hact, hcur⟩
  have hdnd : (GetSliceDifference (preAlertCleanup ruleId cur st.events st).2 cur).Nodup :=
    sliceDiff_nodup (active_nodup hnd)
  have h1e : lookupAssoc (preAlertCleanup ruleId cur st.events st).1.events fp
      = lookupAssoc st.events fp :=
    preAlertCleanup_events_frame ruleId cur fp st.events st
      (no_removesKey_of_status hnd hcons hlook (by rw [hst]; decide))
  have h1p : (preAlertCleanup ruleId cur st.events st).1.pending = st.pending :=
    preAlertCleanup_pending ruleId cur st.events st
  obtain ⟨h2e, h2p⟩ := promotePending_frame st.events
      (preAlertCleanup ruleId cur st.events st).1.pending fp hcons cur
      (preAlertCleanup ruleId cur st.events st).1 (Or.inr hcur)
  have hst2p : lookupAssoc (promotePending st.events
      (preAlertCleanup ruleId cur st.events st).1.pending cur
      (preAlertCleanup ruleId cur st.events st).1).pending fp = none := by
    rw [h2p, h1p]
    exact hpend
  have htr : TransitionStatus ev .pendingRecovery = none := by
    simp [TransitionStatus, canTransition, hst]
  obtain ⟨h3p, h3e⟩ := recoverPass_first_absent st.events (getRecoverWaitTime fc)
      curTime fp ev hcons hlook
      (GetSliceDifference (preAlertCleanup ruleId cur st.events st).2 cur)
      (promotePending st.events (preAlertCleanup ruleId cur st.events st).1.pending cur
        (preAlertCleanup ruleId cur st.events st).1) hdnd hdmem hst2p
  refine ⟨h3p, ?_⟩
  rw [htr] at h3e
  rw [h3e, h2e, h1e]
  exact hlook

/-- C10 witness: a Recovered event, absent this tick with no pending entry,
gets a pending entry stamped with the tick time while staying Recovered. -/
theorem Recover_pending_persists_on_failed_transition_witness :
    lookupAssoc (Recover true "r1" ⟨10⟩ [] 3
        ⟨[("fpR", ⟨"t1", "fc1", "fpR", "r1", .recovered⟩)], []⟩).pending "fpR"
      = some 3 ∧
    lookupAssoc (Recover true "r1" ⟨10⟩ [] 3
        ⟨[("fpR", ⟨"t1", "fc1", "fpR", "r1", .recovered⟩)], []⟩).events "fpR"
      = some ⟨"t1", "fc1", "fpR", "r1", .recovered⟩ :=
  Recover_pending_persists_on_failed_transition "r1" ⟨10⟩ [] 3
    ⟨[("fpR", ⟨"t1", "fc1", "fpR", "r1", .recovered⟩)], []⟩ "fpR"
    ⟨"t1", "fc1", "fpR", "r1", .recovered⟩
    (by unfold nodupKeys; decide) (by unfold consistentEvents; decide)
    (by decide) rfl (by decide) (by decide) (by decide)

/-- C4 counterexample: a fingerprint present in `curFingerprints`, in the
pending table and in the events map, but whose event is already Recovered:
the transition to Alerting fails, so the event is not set to Alerting and
the pending entry is not deleted — the claim's unconditional promotion is
false on the code. -/
theorem Recover_promotion_fails_for_recovered_cex :
    lookupAssoc (Recover true "r1" ⟨10⟩ ["fp1"] 7
        ⟨[("fp1", ⟨"t1", "fc1", "fp1", "r1", .recovered⟩)], [("fp1", 5)]⟩).events "fp1"
      ≠ some ⟨"t1", "fc1", "fp1", "r1", .alerting⟩ ∧
    lookupAssoc (Recover true "r1" ⟨10⟩ ["fp1"] 7
        ⟨[("fp1", ⟨"t1", "fc1", "fp1", "r1", .recovered⟩)], [("fp1", 5)]⟩).pending "fp1"
      ≠ none := by
  constructor
  · decide
  · decide

/-- C4 (amended): for a fingerprint in `curFingerprints`, in the pending
table and in the events map whose event is not already Recovered, one call
to `Recover` sets the event's status to Alerting and deletes the pending
entry (so an event absent at tick k and present again at tick k+1 before
the threshold ends tick k+1 Alerting with no pending entry). -/
theorem Recover_pending_promotion (ruleId : String) (fc : FaultCenterInfo)
    (cur : List String) (curTime : Int) (st : RedisState) (fp : String) (w : Int)
    (ev : AlertEvent)
    (hcons : consistentEvents st.events)
    (hfp : fp ∈ cur)
    (hpend : lookupAssoc st.pending fp = some w)
    (hlook : lookupAssoc st.events fp = some ev)
    (hnr : ev.status ≠ .recovered) :
    lookupAssoc (Recover true ruleId fc cur curTime st).events fp
        = some { ev with status := .alerting } ∧
    lookupAssoc (Recover true ruleId fc cur curTime st).pending fp = none := by
  rw [Recover_true_eq]
  have htr := TransitionStatus_alerting_of_ne_recovered hnr
  have h1p : (preAlertCleanup ruleId cur st.events st).1.pending = st.pending :=
    preAlertCleanup_pending ruleId cur st.events st
  have hps : lookupAssoc (preAlertCleanup ruleId cur st.events st).1.pending fp
      = some w := by
    rw [h1p]
    exact hpend
  obtain ⟨h2e, h2p⟩ := promotePending_effect st.events
      (preAlertCleanup ruleId cur st.events st).1.pending fp w ev
      { ev with status := .alerting } hcons hps hlook htr cur
      (preAlertCleanup ruleId cur st.events st).1 hfp
  have hdiff : fp ∉ GetSliceDifference (preAlertCleanup ruleId cur st.events st).2 cur :=
    fun hm => (mem_sliceDiff.mp hm).2 hfp
  obtain ⟨h3e, h3p⟩ := recoverPass_frame st.events (getRecoverWaitTime fc) curTime fp hcons
      (GetSliceDifference (preAlertCleanup ruleId cur st.events st).2 cur)
      (promotePending st.events (preAlertCleanup ruleId cur st.events st).1.pending cur
        (preAlertCleanup ruleId cur st.events st).1) hdiff
  exact ⟨h3e.trans h2e, h3p.trans h2p⟩

/-- C4 witness: a PendingRecovery event flapping back this tick is promoted
to Alerting and its pending entry removed. -/
theorem Recover_pending_promotion_witness :
    lookupAssoc (Recover true "r1" ⟨10⟩ ["fp1"] 1
        ⟨[("fp1", ⟨"t1", "fc1", "fp1", "r1", .pendingRecovery⟩)], [("fp1", 0)]⟩).events "fp1"
      = some ⟨"t1", "fc1", "fp1", "r1", .alerting⟩ ∧
    lookupAssoc (Recover true "r1" ⟨10⟩ ["fp1"] 1
        ⟨[("fp1", ⟨"t1", "fc1", "fp1", "r1", .pendingRecovery⟩)], [("fp1", 0)]⟩).pending "fp1"
      = none :=
  Recover_pending_promotion "r1" ⟨10⟩ ["fp1"] 1
    ⟨[("fp1", ⟨"t1", "fc1", "fp1", "r1", .pendingRecovery⟩)], [("fp1", 0)]⟩ "fp1" 0
    ⟨"t1", "fc1", "fp1", "r1", .pendingRecovery⟩
    (by unfold consistentEvents; decide) (by decide) (by decide) (by decide) (by decide)

/-- C3 counterexample: a PreAlert event whose fingerprint is in
`curFingerprints` (and rule-scoped) but has no pending-recovery entry keeps
status PreAlert after `Recover` — the reconciler does not perform the
PreAlert → Alerting promotion on firing alone. -/
theorem Recover_preAlert_firing_not_promoted_cex :
    lookupAssoc (Recover true "r1" ⟨10⟩ ["fp2"] 0
        ⟨[("fp2", ⟨"t1", "fc1", "fp2", "r1", .preAlert⟩)], []⟩).events "fp2"
      = some ⟨"t1", "fc1", "fp2", "r1", .preAlert⟩ ∧
    lookupAssoc (Recover true "r1" ⟨10⟩ ["fp2"] 0
        ⟨[("fp2", ⟨"t1", "fc1", "fp2", "r1", .preAlert⟩)], []⟩).events "fp2"
      ≠ some ⟨"t1", "fc1", "fp2", "r1", .alerting⟩ := by
  constructor
  · decide
  · decide

/-- C3 (amended): a PreAlert event whose fingerprint is in `curFingerprints`
is transitioned to Alerting by `Recover` only through the pending-promotion
pass: when its fingerprint is also in the pending-recovery table, the event
ends the tick Alerting (and the pending entry is deleted); the plain
PreAlert-and-firing promotion is done upstream, not by the reconciler. -/
theorem Recover_preAlert_promotion_needs_pending (ruleId : String)
    (fc : FaultCenterInfo) (cur : List String) (curTime : Int) (st : RedisState)
    (fp : String) (w : Int) (ev : AlertEvent)
    (hcons : consistentEvents st.events)
    (hst : ev.status = .preAlert)
    (hcont : strContains ev.ruleId ruleId = true)
    (hfp : fp ∈ cur)
    (hpend : lookupAssoc st.pending fp = some w)
    (hlook : lookupAssoc st.events fp = some ev) :
    lookupAssoc (Recover true ruleId fc cur curTime st).events fp
        = some { ev with status := .alerting } ∧
    lookupAssoc (Recover true ruleId fc cur curTime st).pending fp = none := by
  rw [Recover_true_eq]
  have hnr : ev.status ≠ .recovered := by rw [hst]; decide
  have htr := TransitionStatus_alerting_of_ne_recovered hnr
  have h1p : (preAlertCleanup ruleId cur st.events st).1.pending = st.pending :=
    preAlertCleanup_pending ruleId cur st.events st
  have hps : lookupAssoc (preAlertCleanup ruleId cur st.events st).1.pending fp
      = some w := by
    rw [h1p]
    exact hpend
  obtain ⟨h2e, h2p⟩ := promotePending_effect st.events
      (preAlertCleanup ruleId cur st.events st).1.pending fp w ev
      { ev with status := .alerting } hcons hps hlook htr cur
      (preAlertCleanup ruleId cur st.events st).1 hfp
  have hdiff : fp ∉ GetSliceDifference (preAlertCleanup ruleId cur st.events st).2 cur :=
    fun hm => (mem_sliceDiff.mp hm).2 hfp
  obtain ⟨h3e, h3p⟩ := recoverPass_frame st.events (getRecoverWaitTime fc) curTime fp hcons
      (GetSliceDifference (preAlertCleanup ruleId cur st.events st).2 cur)
      (promotePending st.events (preAlertCleanup ruleId cur st.events st).1.pending cur
        (preAlertCleanup ruleId cur st.events st).1) hdiff
  exact ⟨h3e.trans h2e, h3p.trans h2p⟩

/-- C3 witness: a PreAlert event, firing and with a pending entry, ends the
tick Alerting with the pending entry deleted. -/
theorem Recover_preAlert_promotion_needs_pending_witness :
    lookupAssoc (Recover true "r1" ⟨10⟩ ["fp3"] 2
        ⟨[("fp3", ⟨"t1", "fc1", "fp3", "r1", .preAlert⟩)], [("fp3", 1)]⟩).events "fp3"
      = some ⟨"t1", "fc1", "fp3", "r1", .alerting⟩ ∧
    lookupAssoc (Recover true "r1" ⟨10⟩ ["fp3"] 2
        ⟨[("fp3", ⟨"t1", "fc1", "fp3", "r1", .preAlert⟩)], [("fp3", 1)]⟩).pending "fp3"
      = none :=
  Recover_preAlert_promotion_needs_pending "r1" ⟨10⟩ ["fp3"] 2
    ⟨[("fp3", ⟨"t1", "fc1", "fp3", "r1", .preAlert⟩)], [("fp3", 1)]⟩ "fp3" 1
    ⟨"t1", "fc1", "fp3", "r1", .preAlert⟩
    (by unfold consistentEvents; decide) rfl (by decide) (by decide) (by decide) (by decide)

/-- C7 counterexample: an event whose `ruleId` ("other") does not contain
the rule's `ruleId` ("r1"), but whose fingerprint sits in the
pending-recovery table for this rule and in `curFingerprints`, is modified
by `Recover`: the promotion pass sets it to Alerting and deletes its pending
entry — the claim that such events are left completely unchanged is false. -/
theorem Recover_foreign_event_promoted_cex :
    strContains "other" "r1" = false ∧
    lookupAssoc (Recover true "r1" ⟨10⟩ ["fpF"] 7
        ⟨[("fpF", ⟨"t1", "fc1", "fpF", "other", .pendingRecovery⟩)], [("fpF", 5)]⟩).events "fpF"
      = some ⟨"t1", "fc1", "fpF", "other", .alerting⟩ ∧
    lookupAssoc (Recover true "r1" ⟨10⟩ ["fpF"] 7
        ⟨[("fpF", ⟨"t1", "fc1", "fpF", "other", .pendingRecovery⟩)], [("fpF", 5)]⟩).pending "fpF"
      = none := by
  refine ⟨?_, ?_, ?_⟩
  · decide
  · decide
  · decide

/-- C7 (amended): an event whose `ruleId` does not contain the rule's
`ruleId`, and whose fingerprint is not simultaneously in `curFingerprints`
and in the pending table, is left completely unchanged by `Recover`: it
keeps its cache entry and value, and its pending-table entry is unchanged.
(The promotion pass is scoped only by the pending table, not by ruleId.) -/
theorem Recover_rule_scope_frame (ruleId : String) (fc : FaultCenterInfo)
    (cur : List String) (curTime : Int) (st : RedisState) (fp : String)
    (ev : AlertEvent)
    (hnd : nodupKeys st.events) (hcons : consistentEvents st.events)
    (hlook : lookupAssoc st.events fp = some ev)
    (hcont : strContains ev.ruleId ruleId = false)
    (hside : lookupAssoc st.pending fp = none ∨ fp ∉ cur) :
    lookupAssoc (Recover true ruleId fc cur curTime st).events fp = some ev ∧
    lookupAssoc (Recover true ruleId fc cur curTime st).pending fp
      = lookupAssoc st.pending fp := by
  rw [Recover_true_eq]
  have h1e : lookupAssoc (preAlertCleanup ruleId cur st.events st).1.events fp
      = lookupAssoc st.events fp :=
    preAlertCleanup_events_frame ruleId cur fp st.events st
      (no_removesKey_of_not_scoped hnd hcons hlook hcont)
  have h1p : (preAlertCleanup ruleId cur st.events st).1.pending = st.pending :=
    preAlertCleanup_pending ruleId cur st.events st
  have hside1 : lookupAssoc (preAlertCleanup ruleId cur st.events st).1.pending fp = none
      ∨ fp ∉ cur := by
    rw [h1p]
    exact hside
  obtain ⟨h2e, h2p⟩ := promotePending_frame st.events
      (preAlertCleanup ruleId cur st.events st).1.pending fp hcons cur
      (preAlertCleanup ruleId cur st.events st).1 hside1
  have hkf : keepActive ruleId cur (fp, ev) = false := by
    simp [keepActive, hcont]
  have hact : fp ∉ activeRuleFingerprints ruleId cur st := not_mem_active hnd hlook hkf
  have hdiff : fp ∉ GetSliceDifference (preAlertCleanup ruleId cur st.events st).2 cur :=
    fun hm => hact (mem_sliceDiff.mp hm).1
  obtain ⟨h3e, h3p⟩ := recoverPass_frame st.events (getRecoverWaitTime fc) curTime fp hcons
      (GetSliceDifference (preAlertCleanup ruleId cur st.events st).2 cur)
      (promotePending st.events (preAlertCleanup ruleId cur st.events st).1.pending cur
        (preAlertCleanup ruleId cur st.events st).1) hdiff
  refine ⟨?_, ?_⟩
  · rw [h3e, h2e, h1e]
    exact hlook
  · rw [h3p, h2p, h1p]

/-- C7 witness: a foreign-rule Alerting event with no pending entry is left
untouched by the tick. -/
theorem Recover_rule_scope_frame_witness :
    lookupAssoc (Recover true "r1" ⟨10⟩ ["fpG"] 7
        ⟨[("fpG", ⟨"t1", "fc1", "fpG", "other", .alerting⟩)], []⟩).events "fpG"
      = some ⟨"t1", "fc1", "fpG", "other", .alerting⟩ ∧
    lookupAssoc (Recover true "r1" ⟨10⟩ ["fpG"] 7
        ⟨[("fpG", ⟨"t1", "fc1", "fpG", "other", .alerting⟩)], []⟩).pending "fpG"
      = lookupAssoc (⟨[("fpG", ⟨"t1", "fc1", "fpG", "other", .alerting⟩)], []⟩
          : RedisState).pending "fpG" :=
  Recover_rule_scope_frame "r1" ⟨10⟩ ["fpG"] 7
    ⟨[("fpG", ⟨"t1", "fc1", "fpG", "other", .alerting⟩)], []⟩ "fpG"
    ⟨"t1", "fc1", "fpG", "other", .alerting⟩
    (by unfold nodupKeys; decide) (by unfold consistentEvents; decide)
    (by decide) (by decide) (Or.inl (by decide))

/-- C1 counterexample: the claim quantifies over every event that becomes
absent, but a PreAlert event that is absent is deleted at the first tick:
no `pending[fp] := t0` entry is written and the status never becomes
PendingRecovery. -/
theorem Recover_hysteresis_preAlert_cex :
    lookupAssoc (Recover true "r1" ⟨10⟩ [] 0
        ⟨[("fp9", ⟨"t1", "fc1", "fp9", "r1", .preAlert⟩)], []⟩).pending "fp9"
      ≠ some 0 ∧
    lookupAssoc (Recover true "r1" ⟨10⟩ [] 0
        ⟨[("fp9", ⟨"t1", "fc1", "fp9", "r1", .preAlert⟩)], []⟩).events "fp9"
      ≠ some ⟨"t1", "fc1", "fp9", "r1", .pendingRecovery⟩ := by
  constructor
  · decide
  · decide

/-- C1 (amended): for an Alerting rule-scoped event whose fingerprint is
absent from `curFingerprints` from a tick at time `t0` onward, `Recover`
sets `pending[fp] := t0` and status PendingRecovery at the first absent
tick, leaves the state unchanged (status PendingRecovery) at every tick with
`now < t0 + W`, and at the first tick with `now ≥ t0 + W` transitions the
event to Recovered and deletes `pending[fp]` (W = `getRecoverWaitTime`). -/
theorem Recover_hysteresis (ruleId fp : String) (ev : AlertEvent)
    (fc : FaultCenterInfo) (t0 tEnd : Int) (ts : List Int)
    (hst : ev.status = .alerting) (hfpr : ev.fingerprint = fp)
    (hcont : strContains ev.ruleId ruleId = true)
    (hts : ∀ t ∈ ts, t < t0 + getRecoverWaitTime fc)
    (hend : t0 + getRecoverWaitTime fc ≤ tEnd) :
    Recover true ruleId fc [] t0 ⟨[(fp, ev)], []⟩
      = ⟨[(fp, { ev with status := .pendingRecovery })], [(fp, t0)]⟩ ∧
    List.foldl (fun s t => Recover true ruleId fc [] t s)
        ⟨[(fp, { ev with status := .pendingRecovery })], [(fp, t0)]⟩ ts
      = ⟨[(fp, { ev with status := .pendingRecovery })], [(fp, t0)]⟩ ∧
    Recover true ruleId fc [] tEnd
        ⟨[(fp, { ev with status := .pendingRecovery })], [(fp, t0)]⟩
      = ⟨[(fp, { ev with status := .recovered })], []⟩ := by
  refine ⟨Recover_tick_first ruleId fp ev fc t0 hst hfpr hcont, ?_, ?_⟩
  · have hfold : ∀ (l : List Int), (∀ t ∈ l, t < t0 + getRecoverWaitTime fc) →
        List.foldl (fun s t => Recover true ruleId fc [] t s)
            ⟨[(fp, { ev with status := .pendingRecovery })], [(fp, t0)]⟩ l
          = ⟨[(fp, { ev with status := .pendingRecovery })], [(fp, t0)]⟩ := by
      intro l
      induction l with
      | nil => intro _; rfl
      | cons t rest ih =>
        intro hl
        have hstep : Recover true ruleId fc [] t
            ⟨[(fp, { ev with status := .pendingRecovery })], [(fp, t0)]⟩
            = ⟨[(fp, { ev with status := .pendingRecovery })], [(fp, t0)]⟩ :=
          Recover_tick_hold ruleId fp { ev with status := .pendingRecovery } fc t0 t
            rfl hfpr hcont (hl t (List.mem_cons_self _ _))
        rw [List.foldl_cons, hstep]
        exact ih (fun x hx => hl x (List.mem_cons_of_mem _ hx))
    exact hfold ts hts
  · exact Recover_tick_final ruleId fp { ev with status := .pendingRecovery } fc t0 tEnd
      rfl hfpr hcont hend

/-- C1 witness: the spec's S2 scenario with W = 10: pending written and
status PendingRecovery at t = 0, unchanged at t = 1 and t = 5, Recovered
with the pending entry deleted at t = 10. -/
theorem Recover_hysteresis_witness :
    Recover true "r1" ⟨10⟩ [] 0
        ⟨[("fp1", ⟨"t1", "fc1", "fp1", "r1", .alerting⟩)], []⟩
      = ⟨[("fp1", ⟨"t1", "fc1", "fp1", "r1", .pendingRecovery⟩)], [("fp1", 0)]⟩ ∧
    List.foldl (fun s t => Recover true "r1" ⟨10⟩ [] t s)
        ⟨[("fp1", ⟨"t1", "fc1", "fp1", "r1", .pendingRecovery⟩)], [("fp1", 0)]⟩ [1, 5]
      = ⟨[("fp1", ⟨"t1", "fc1", "fp1", "r1", .pendingRecovery⟩)], [("fp1", 0)]⟩ ∧
    Recover true "r1" ⟨10⟩ [] 10
        ⟨[("fp1", ⟨"t1", "fc1", "fp1", "r1", .pendingRecovery⟩)], [("fp1", 0)]⟩
      = ⟨[("fp1", ⟨"t1", "fc1", "fp1", "r1", .recovered⟩)], []⟩ :=
  Recover_hysteresis "r1" "fp1" ⟨"t1", "fc1", "fp1", "r1", .alerting⟩ ⟨10⟩ 0 10 [1, 5]
    rfl rfl (by decide) (by decide) (by decide)

end WatchAlert
